import Mathlib

/-!
Shallow embedding of the cache subsystem of `pitwall-cli`
(`source/cache.py`, class `F1Cache`) and of the cache-aware fetch
pipeline (`source/api.py`, function `fetch_json`), together with the
verification of the frozen claims about them.

Modelling conventions:

* Python `datetime` instants and `timedelta` durations are rationals
  (`ℚ`), measured in hours (the unit the expiration policies use).
  `timedelta(hours = h)` is addition of `h`.
* A parsed JSON value is `JVal`.  Python strings split into two
  constructors: `JVal.jtime t` stands for a string that
  `datetime.fromisoformat` accepts (it denotes the instant `t`), while
  `JVal.jstr s` stands for a string that `fromisoformat` rejects.
  String equality between an ISO-formatted timestamp string and a plain
  category label is modelled as `false` (labels are not ISO strings).
* The cache directory is an association list from file name to file.
  A file either holds decodable JSON (`FContent.parsed`), text that
  `json.load` rejects with `JSONDecodeError` (`FContent.malformed`),
  or bytes that are not valid text, so that reading raises
  `UnicodeDecodeError` before JSON decoding (`FContent.badEncoding`).
* Exceptions escaping a modelled function are `Except.error` with a
  `PyErr`; normal returns are `Except.ok`.
* The network leg of `fetch_json` (the `requests` session including its
  internal retry adapter) is modelled by its observable outcome, a
  `NetResult`.
-/

/-- Python exception classes that can escape the modelled code. -/
inductive PyErr where
  | valueError
  | typeError
  | unicodeDecodeError
deriving DecidableEq, Repr

/-- Parsed JSON values.  `jtime` and `jstr` both stand for JSON strings;
see the conventions above. -/
inductive JVal where
  | jnull
  | jbool (b : Bool)
  | jnum (q : ℚ)
  | jstr (s : String)
  | jtime (t : ℚ)
  | jarr (elems : List JVal)
  | jobj (fields : List (String × JVal))
deriving Repr

/-- Python `dict[key]` / `dict.get(key)` on a decoded JSON object:
the value of the first field named `k`.  (Objects decoded by
`json.load` have distinct keys, so first-match is exact.) -/
def objGet (j : JVal) (k : String) : Option JVal :=
  match j with
  | JVal.jobj fields => (fields.find? (fun p => p.1 = k)).map (·.2)
  | _ => none

/-! ## Python `str.replace` (non-overlapping, leftmost, replace-all) -/

/-- Boolean list-prefix test, as used by the `str.replace` model. -/
def isPre : List Char → List Char → Bool
  | [], _ => true
  | _ :: _, [] => false
  | a :: as, b :: bs => if a = b then isPre as bs else false

/-- Core of Python `str.replace` for a non-empty pattern `p :: ps`:
scan left to right; at a match, emit `rep` and resume after the
matched span (non-overlapping); otherwise keep the character.  The
`fuel` argument makes the recursion structural (each step consumes at
least one character, so any `fuel ≥ s.length` computes the scan). -/
def pyReplaceFuel (p : Char) (ps rep : List Char) : ℕ → List Char → List Char
  | 0, s => s
  | _ + 1, [] => []
  | fuel + 1, c :: cs =>
    if isPre (p :: ps) (c :: cs) then
      rep ++ pyReplaceFuel p ps rep fuel (cs.drop ps.length)
    else
      c :: pyReplaceFuel p ps rep fuel cs

/-- The scan of `pyReplaceFuel` with enough fuel to finish. -/
def pyReplaceAux (p : Char) (ps rep s : List Char) : List Char :=
  pyReplaceFuel p ps rep s.length s

/-- Python `s.replace(pat, rep)` on character lists.  All call sites in
the source use a non-empty `pat`; the empty-pattern case (where Python
interleaves `rep` everywhere) is left as the identity since it never
occurs. -/
def pyReplace (pat rep s : List Char) : List Char :=
  match pat with
  | [] => s
  | p :: ps => pyReplaceAux p ps rep s

/-- Characters of the literal `"https://"`. -/
def httpsPat : List Char := ['h', 't', 't', 'p', 's', ':', '/', '/']

/-- Characters of the literal `"http://"`. -/
def httpPat : List Char := ['h', 't', 't', 'p', ':', '/', '/']

/-- The scheme stripping performed by `F1Cache._get_cache_key`:
`url.replace("https://", "").replace("http://", "")`. -/
def cleanChars (url : List Char) : List Char :=
  pyReplace httpPat [] (pyReplace httpsPat [] url)

/-! ## MD5 (RFC 1321) over byte lists, all words as `Nat mod 2^32` -/

/-- Truncation to a 32-bit word. -/
def w32 (n : ℕ) : ℕ := n % 4294967296

/-- Left rotation of a 32-bit word. -/
def rotl32 (x s : ℕ) : ℕ := (x <<< s ||| x >>> (32 - s)) % 4294967296

/-- Round function F (rounds 0–15): `(B ∧ C) ∨ (¬B ∧ D)`. -/
def md5F (b c d : ℕ) : ℕ := (b &&& c) ||| ((b ^^^ 4294967295) &&& d)

/-- Round function G (rounds 16–31): `(D ∧ B) ∨ (¬D ∧ C)`. -/
def md5G (b c d : ℕ) : ℕ := (d &&& b) ||| ((d ^^^ 4294967295) &&& c)

/-- Round function H (rounds 32–47): `B ⊕ C ⊕ D`. -/
def md5H (b c d : ℕ) : ℕ := b ^^^ c ^^^ d

/-- Round function I (rounds 48–63): `C ⊕ (B ∨ ¬D)`. -/
def md5I (b c d : ℕ) : ℕ := c ^^^ (b ||| (d ^^^ 4294967295))

/-- The 64 MD5 sine-derived constants `K[i]`. -/
def md5K : List ℕ :=
  [0xd76aa478, 0xe8c7b756, 0x242070db, 0xc1bdceee,
   0xf57c0faf, 0x4787c62a, 0xa8304613, 0xfd469501,
   0x698098d8, 0x8b44f7af, 0xffff5bb1, 0x895cd7be,
   0x6b901122, 0xfd987193, 0xa679438e, 0x49b40821,
   0xf61e2562, 0xc040b340, 0x265e5a51, 0xe9b6c7aa,
   0xd62f105d, 0x02441453, 0xd8a1e681, 0xe7d3fbc8,
   0x21e1cde6, 0xc33707d6, 0xf4d50d87, 0x455a14ed,
   0xa9e3e905, 0xfcefa3f8, 0x676f02d9, 0x8d2a4c8a,
   0xfffa3942, 0x8771f681, 0x6d9d6122, 0xfde5380c,
   0xa4beea44, 0x4bdecfa9, 0xf6bb4b60, 0xbebfbc70,
   0x289b7ec6, 0xeaa127fa, 0xd4ef3085, 0x04881d05,
   0xd9d4d039, 0xe6db99e5, 0x1fa27cf8, 0xc4ac5665,
   0xf4292244, 0x432aff97, 0xab9423a7, 0xfc93a039,
   0x655b59c3, 0x8f0ccc92, 0xffeff47d, 0x85845dd1,
   0x6fa87e4f, 0xfe2ce6e0, 0xa3014314, 0x4e0811a1,
   0xf7537e82, 0xbd3af235, 0x2ad7d2bb, 0xeb86d391]

/-- The 64 MD5 per-round left-rotation amounts `s[i]`. -/
def md5S : List ℕ :=
  [7, 12, 17, 22, 7, 12, 17, 22, 7, 12, 17, 22, 7, 12, 17, 22,
   5, 9, 14, 20, 5, 9, 14, 20, 5, 9, 14, 20, 5, 9, 14, 20,
   4, 11, 16, 23, 4, 11, 16, 23, 4, 11, 16, 23, 4, 11, 16, 23,
   6, 10, 15, 21, 6, 10, 15, 21, 6, 10, 15, 21, 6, 10, 15, 21]

/-- Little-endian serialization of `x` into `n` bytes (truncating). -/
def leBytes (n x : ℕ) : List ℕ :=
  (List.range n).map (fun i => x / 2 ^ (8 * i) % 256)

/-- Assembly of a little-endian 32-bit word from four bytes. -/
def leWord (bs : List ℕ) : ℕ :=
  match bs with
  | [b0, b1, b2, b3] => b0 + 256 * b1 + 65536 * b2 + 16777216 * b3
  | _ => 0

/-- Grouping of a byte list into runs of four. -/
def chunk4 : List ℕ → List (List ℕ)
  | b0 :: b1 :: b2 :: b3 :: rest => [b0, b1, b2, b3] :: chunk4 rest
  | _ => []

/-- Grouping of a byte list into runs of 64 (the padded message is a
multiple of 64 bytes long, so the final run is full).  Structural fuel
as in `pyReplaceFuel`. -/
def chunk64Fuel : ℕ → List ℕ → List (List ℕ)
  | 0, _ => []
  | _ + 1, [] => []
  | fuel + 1, l => l.take 64 :: chunk64Fuel fuel (l.drop 64)

/-- The grouping of `chunk64Fuel` with enough fuel to finish. -/
def chunk64 (l : List ℕ) : List (List ℕ) := chunk64Fuel l.length l

/-- One MD5 round applied to the state `(A, B, C, D)`. -/
def md5Round (m : List ℕ) (st : ℕ × ℕ × ℕ × ℕ) (i : ℕ) : ℕ × ℕ × ℕ × ℕ :=
  match st with
  | (a, b, c, d) =>
    let f :=
      if i < 16 then md5F b c d
      else if i < 32 then md5G b c d
      else if i < 48 then md5H b c d
      else md5I b c d
    let g :=
      if i < 16 then i
      else if i < 32 then (5 * i + 1) % 16
      else if i < 48 then (3 * i + 5) % 16
      else (7 * i) % 16
    let tmp := w32 (f + a + md5K.getD i 0 + m.getD g 0)
    (d, w32 (b + rotl32 tmp (md5S.getD i 0)), b, c)

/-- Processing of one 64-byte block. -/
def md5Block (st : ℕ × ℕ × ℕ × ℕ) (block : List ℕ) : ℕ × ℕ × ℕ × ℕ :=
  let m := (chunk4 block).map leWord
  match st, (List.range 64).foldl (md5Round m) st with
  | (a0, b0, c0, d0), (a, b, c, d) =>
    (w32 (a0 + a), w32 (b0 + b), w32 (c0 + c), w32 (d0 + d))

/-- MD5 padding: `0x80`, zeros to 56 mod 64, then the bit length as
eight little-endian bytes. -/
def md5Pad (msg : List ℕ) : List ℕ :=
  msg ++ [128] ++ List.replicate ((56 + 64 - (msg.length + 1) % 64) % 64) 0
      ++ leBytes 8 (msg.length * 8)

/-- The 16-byte MD5 digest of a byte list. -/
def md5Bytes (msg : List ℕ) : List ℕ :=
  match (chunk64 (md5Pad msg)).foldl md5Block
      (0x67452301, 0xefcdab89, 0x98badcfe, 0x10325476) with
  | (a, b, c, d) => leBytes 4 a ++ leBytes 4 b ++ leBytes 4 c ++ leBytes 4 d

/-- Lower-case hex digit. -/
def hexChar (n : ℕ) : Char :=
  if n < 10 then Char.ofNat (48 + n) else Char.ofNat (87 + n)

/-- Two-character lower-case hex rendering of one byte. -/
def hexByte (b : ℕ) : List Char := [hexChar (b / 16), hexChar (b % 16)]

/-- Python `hashlib.md5(bytes).hexdigest()`. -/
def hexdigest (bs : List ℕ) : String := String.mk ((bs.map hexByte).flatten)

/-- UTF-8 encoding of a string, as Python `str.encode()` produces
(the byte list underlying `String.toUTF8`). -/
def utf8Bytes (s : String) : List ℕ :=
  (s.data.flatMap String.utf8EncodeChar).map (fun b => b.toNat)

namespace F1Cache

/-- Embedding of `F1Cache._get_cache_key`: strip `https://` and
`http://` (Python `str.replace`, all occurrences), then take the MD5
hex digest of the UTF-8 bytes. -/
def _get_cache_key (url : String) : String :=
  hexdigest (md5Bytes (utf8Bytes (String.mk (cleanChars url.data))))

end F1Cache

/-! ## Python `str.split` on a single-character separator -/

/-- Python `s.split(sep)` for a one-character separator: splits at every
occurrence, keeping empty pieces (`"".split("/") == [""]`). -/
def pySplit (sep : Char) : List Char → List (List Char)
  | [] => [[]]
  | c :: cs =>
    if c = sep then
      [] :: pySplit sep cs
    else
      match pySplit sep cs with
      | [] => [[c]]
      | h :: t => (c :: h) :: t

namespace F1Cache

/-- Embedding of `F1Cache._get_endpoint_type`: split the URL on `/`;
with at least five parts, the fifth part up to the first `?` is the
endpoint type, otherwise `"default"`.  (`pySplit` never returns an
empty list, so `headD` is exact for Python's `[0]`.) -/
def _get_endpoint_type (url : String) : String :=
  if 5 ≤ (pySplit '/' url.data).length then
    String.mk ((pySplit '?' ((pySplit '/' url.data).getD 4 [])).headD [])
  else
    "default"

/-- The expiration-policy table from `F1Cache.__init__`, in hours. -/
def expiration_policies : List (String × ℚ) :=
  [("sessions", 24), ("meetings", 24), ("drivers", 12), ("laps", 1),
   ("stints", 1), ("position", 1 / 2), ("pit", 1), ("results", 2),
   ("default", 6)]

/-- Python `dict.get(k, d)` on an association list. -/
def pyDictGet (l : List (String × ℚ)) (k : String) (d : ℚ) : ℚ :=
  match l with
  | [] => d
  | (k', v) :: rest => if k = k' then v else pyDictGet rest k d

/-- The expiration duration `F1Cache.get` selects:
`expiration_policies.get(endpoint_type, expiration_policies["default"])`.
(The `"default"` entry is present, so the raising indexing never
raises; it evaluates to that entry's value.) -/
def hoursFor (endpoint_type : String) : ℚ :=
  pyDictGet expiration_policies endpoint_type
    (pyDictGet expiration_policies "default" 0)

end F1Cache

/-! ## The cache directory state -/

/-- Contents of one stored cache file.  `parsed j` means `json.load`
succeeds with value `j`; `malformed` means `json.load` raises
`JSONDecodeError`; `badEncoding` means reading the file as text raises
`UnicodeDecodeError` (bytes that are not valid UTF-8), which none of
the cache methods catch. -/
inductive FContent where
  | parsed (j : JVal)
  | malformed
  | badEncoding
deriving Repr

/-- One file of the cache directory: its decoded content and its size
in bytes as `stat().st_size` reports it. -/
structure CacheFile where
  content : FContent
  size : ℕ
deriving Repr

/-- The cache directory: file name to file, in directory-scan order.
File names on a file system are distinct; operations use first-match
lookup and remove every match, which agrees with that invariant. -/
abbrev Cache := List (String × CacheFile)

/-- Lookup of a file by name. -/
def cacheLookup (k : String) : Cache → Option CacheFile
  | [] => none
  | (k', f) :: rest => if k = k' then some f else cacheLookup k rest

/-- Deletion (`Path.unlink`) of a file by name. -/
def cacheDelete (k : String) : Cache → Cache
  | [] => []
  | (k', f) :: rest =>
    if k = k' then cacheDelete k rest else (k', f) :: cacheDelete k rest

/-- Overwriting write (`open(..., "w")`) of a file: replaces the file
in place, or creates it at the end of the directory. -/
def cacheInsert (k : String) (f : CacheFile) : Cache → Cache
  | [] => [(k, f)]
  | (k', f') :: rest =>
    if k = k' then (k, f) :: rest else (k', f') :: cacheInsert k f rest

namespace F1Cache

/-- File name used for a URL: `f"{cache_key}.json"`. -/
def fileName (url : String) : String := _get_cache_key url ++ ".json"

/-- Embedding of `F1Cache.get`.  Returns the Python result (payload or
`None`, or an escaping exception) together with the cache state after
the call.  The `try` block catches exactly `(json.JSONDecodeError,
KeyError)` and then deletes the file; `ValueError` from
`datetime.fromisoformat` on a non-ISO string, `TypeError` from
subscripting a non-dict value or from `fromisoformat` on a non-string,
and `UnicodeDecodeError` from reading the file all escape. -/
def get (url : String) (now : ℚ) (c : Cache) :
    Except PyErr (Option JVal) × Cache :=
  let file := fileName url
  match cacheLookup file c with
  | none => (Except.ok none, c)
  | some f =>
    match f.content with
    | FContent.badEncoding => (Except.error PyErr.unicodeDecodeError, c)
    | FContent.malformed => (Except.ok none, cacheDelete file c)
    | FContent.parsed j =>
      match j with
      | JVal.jobj _ =>
        let expiration_hours := hoursFor (_get_endpoint_type url)
        match objGet j "cached_at" with
        | none => (Except.ok none, cacheDelete file c)
        | some (JVal.jtime cached_time) =>
          if now < cached_time + expiration_hours then
            match objGet j "data" with
            | some data => (Except.ok (some data), c)
            | none => (Except.ok none, cacheDelete file c)
          else
            (Except.ok none, c)
        | some (JVal.jstr _) => (Except.error PyErr.valueError, c)
        | some _ => (Except.error PyErr.typeError, c)
      | _ => (Except.error PyErr.typeError, c)

/-- The JSON object `F1Cache.set` writes for a URL: original URL,
derived endpoint, ISO write timestamp, payload. -/
def entryJson (url : String) (data : JVal) (now : ℚ) : JVal :=
  JVal.jobj
    [("url", JVal.jstr url), ("endpoint", JVal.jstr (_get_endpoint_type url)),
     ("cached_at", JVal.jtime now), ("data", data)]

mutual

/-- Size in bytes of the written file.  No claim depends on the exact
byte count `json.dump` produces, only on `stat().st_size` being read
back by `stats`; the model measures a file by the number of nodes of
its JSON value. -/
def entrySize : JVal → ℕ
  | JVal.jnull => 1
  | JVal.jbool _ => 1
  | JVal.jnum _ => 1
  | JVal.jstr _ => 1
  | JVal.jtime _ => 1
  | JVal.jarr l => 1 + entrySizeList l
  | JVal.jobj l => 1 + entrySizeFields l

def entrySizeList : List JVal → ℕ
  | [] => 0
  | j :: rest => entrySize j + entrySizeList rest

def entrySizeFields : List (String × JVal) → ℕ
  | [] => 0
  | (_, j) :: rest => entrySize j + entrySizeFields rest

end

/-- Embedding of `F1Cache.set`: write (overwrite) the entry file.  The
write is modelled as succeeding; a failing write would leave the cache
unchanged (`except Exception: pass`). -/
def set (url : String) (data : JVal) (now : ℚ) (c : Cache) : Cache :=
  cacheInsert (fileName url)
    ⟨FContent.parsed (entryJson url data now), entrySize (entryJson url data now)⟩ c

end F1Cache

mutual

/-- Python `==` between two decoded JSON values, as used for the
`by_endpoint` dictionary keys in `stats`.  Under the `jtime`/`jstr`
convention two strings are equal exactly when the same constructor
carries equal contents. -/
def jvalBeq : JVal → JVal → Bool
  | JVal.jnull, JVal.jnull => true
  | JVal.jbool a, JVal.jbool b => a = b
  | JVal.jnum a, JVal.jnum b => a = b
  | JVal.jstr a, JVal.jstr b => a = b
  | JVal.jtime a, JVal.jtime b => a = b
  | JVal.jarr a, JVal.jarr b => jvalBeqList a b
  | JVal.jobj a, JVal.jobj b => jvalBeqFields a b
  | _, _ => false

def jvalBeqList : List JVal → List JVal → Bool
  | [], [] => true
  | a :: as, b :: bs => jvalBeq a b && jvalBeqList as bs
  | _, _ => false

def jvalBeqFields : List (String × JVal) → List (String × JVal) → Bool
  | [], [] => true
  | (k, a) :: as, (k', b) :: bs => k = k' && jvalBeq a b && jvalBeqFields as bs
  | _, _ => false

end

/-- Python `==` between a decoded JSON value (or `None` from
`dict.get`) and a category string, as in
`cache_data.get("endpoint") == endpoint`.  Only an ordinary string can
equal the label (`jtime` strings are ISO timestamps, labels are not);
`None == label` and non-string values compare unequal without
raising. -/
def pyEqStr : Option JVal → String → Bool
  | some (JVal.jstr s), e => s = e
  | _, _ => false

namespace F1Cache

/-- Result of `F1Cache.clear`: the count it prints, the value the
function returns (always `None` — there is no `return` statement), and
the cache directory afterwards. -/
structure ClearResult where
  printed : ℕ
  ret : Option ℕ
  cache : Cache
deriving Repr

/-- The decision `clear` takes for one decodable dict entry:
`endpoint is None or cache_data.get("endpoint") == endpoint`. -/
def clearMatches (endpoint : Option String) (j : JVal) : Bool :=
  match endpoint with
  | none => true
  | some e => pyEqStr (objGet j "endpoint") e

/-- Scan step of `clear` over the directory listing.  Files whose
contents raise inside the `try` block are deleted by the `except`
branch without being counted: undecodable JSON, bad encoding, or —
only when a category was given — `.get` on a decoded non-dict value.
With no category, `endpoint is None` short-circuits the condition
before `.get` is reached, so every decodable file (dict or not) is
deleted and counted; with a category, a decodable dict is deleted and
counted exactly when `clearMatches` holds. -/
def clearScan (endpoint : Option String) : List (String × CacheFile) → ℕ × Cache
  | [] => (0, [])
  | (k, f) :: rest =>
    let (n, kept) := clearScan endpoint rest
    match f.content with
    | FContent.parsed j =>
      match endpoint with
      | none => (n + 1, kept)
      | some e =>
        match j with
        | JVal.jobj fields =>
          if clearMatches (some e) (JVal.jobj fields) then
            (n + 1, kept)
          else
            (n, (k, f) :: kept)
        | _ => (n, kept)
    | _ => (n, kept)

/-- Embedding of `F1Cache.clear`. -/
def clear (endpoint : Option String) (c : Cache) : ClearResult :=
  let (n, kept) := clearScan endpoint c
  { printed := n, ret := none, cache := kept }

/-- The statistics record `F1Cache.stats` builds.  `by_endpoint` is an
insertion-ordered dictionary keyed by the stored endpoint value. -/
structure StatsResult where
  total : ℕ
  by_endpoint : List (JVal × ℕ)
  oldest : Option ℚ
  newest : Option ℚ
  total_size : ℕ
deriving Repr

/-- Increment of `stats["by_endpoint"][endpoint]`, Python dict
semantics: update the existing key in place or append a new one. -/
def bumpEndpoint (k : JVal) : List (JVal × ℕ) → List (JVal × ℕ)
  | [] => [(k, 1)]
  | (k', n) :: rest =>
    if jvalBeq k k' then (k', n + 1) :: rest else (k', n) :: bumpEndpoint k rest

/-- Processing of one decodable file inside the `try` block of
`stats`, with the statement order of the source: `total` and
`total_size` are updated first, then `by_endpoint`, then the
timestamps; an exception part-way through (non-dict value, unhashable
endpoint value, missing or non-ISO `cached_at`) keeps the updates made
before it (`except Exception: continue`). -/
def statsStep (st : StatsResult) (sz : ℕ) (j : JVal) : StatsResult :=
  let st1 := { st with total := st.total + 1, total_size := st.total_size + sz }
  match j with
  | JVal.jobj _ =>
    let ep := (objGet j "endpoint").getD (JVal.jstr "unknown")
    match ep with
    | JVal.jarr _ => st1
    | JVal.jobj _ => st1
    | _ =>
      let st2 := { st1 with by_endpoint := bumpEndpoint ep st1.by_endpoint }
      match objGet j "cached_at" with
      | some (JVal.jtime t) =>
        let oldest' :=
          match st2.oldest with
          | none => some t
          | some o => if t < o then some t else some o
        let newest' :=
          match st2.newest with
          | none => some t
          | some o => if o < t then some t else some o
        { st2 with oldest := oldest', newest := newest' }
      | _ => st2
  | _ => st1

/-- Fold of `statsStep` over the directory listing; files that raise
before JSON decoding contribute nothing. -/
def statsScan (st : StatsResult) : List (String × CacheFile) → StatsResult
  | [] => st
  | (_, f) :: rest =>
    match f.content with
    | FContent.parsed j => statsScan (statsStep st f.size j) rest
    | _ => statsScan st rest

/-- Embedding of `F1Cache.stats`.  The cache is returned unchanged
alongside the record: the `except` branch of the scan is a bare
`continue`, deleting nothing. -/
def stats (c : Cache) : StatsResult × Cache :=
  (statsScan ⟨0, [], none, none, 0⟩ c, c)

end F1Cache

/-! ## The fetch pipeline (`source/api.py`) -/

/-- Observable outcome of the network leg of `fetch_json` (the
`requests` session with its retry adapter): a 2xx response with a
decodable JSON body, an `HTTPError` raised by `raise_for_status` with
its status code, a `Timeout`, any other `RequestException` (connection
failure, and also a 2xx body that `response.json()` rejects, since
`requests` raises its `JSONDecodeError`, a `RequestException`
subclass). -/
inductive NetResult where
  | success (data : JVal)
  | httpError (status : ℕ)
  | timeout
  | netError
deriving Repr

/-- Truth of `net` being one of the failure outcomes. -/
def NetResult.isFailure : NetResult → Bool
  | NetResult.success _ => false
  | _ => true

/-- Result of `fetch_json`: the returned payload (or `None` on a
classified failure, or an exception escaping from the cache lookup),
the cache afterwards, and whether the network was called. -/
structure FetchResult where
  result : Except PyErr (Option JVal)
  cache : Cache
  networkCalled : Bool
deriving Repr

/-- The network portion of `fetch_json` (the `try` from
`session.get` on): on success, write-through to the cache and return
the payload; on each classified failure, print a message and return
`None` without touching the cache. -/
def networkLeg (url : String) (net : NetResult) (now : ℚ) (c : Cache) :
    FetchResult :=
  match net with
  | NetResult.success data =>
    { result := Except.ok (some data), cache := F1Cache.set url data now c,
      networkCalled := true }
  | _ => { result := Except.ok none, cache := c, networkCalled := true }

/-- Python `cached_data is not None` on the value `F1Cache.get` hands
back: a miss returns Python `None`, and so does a hit whose stored
payload is JSON `null` (decoded to `None`), so both send `fetch_json`
to the network. -/
def isNotNone : Option JVal → Bool
  | none => false
  | some JVal.jnull => false
  | some _ => true

/-- Embedding of `fetch_json(url, force_refresh)`: consult the cache
unless `force_refresh`; when the value handed back is not `None`
return it with no network call; otherwise (miss, or a cached `null`
payload, or bypass) run the network leg.  An exception escaping
`F1Cache.get` escapes `fetch_json` before any network activity. -/
def fetch_json (url : String) (force_refresh : Bool) (net : NetResult)
    (now : ℚ) (c : Cache) : FetchResult :=
  if force_refresh then
    networkLeg url net now c
  else
    match F1Cache.get url now c with
    | (Except.ok cached_data, c') =>
      if isNotNone cached_data then
        { result := Except.ok cached_data, cache := c', networkCalled := false }
      else
        networkLeg url net now c'
    | (Except.error e, c') =>
      { result := Except.error e, cache := c', networkCalled := false }

/-! ## Statement helpers (predicates used to state the claims) -/

/-- Truth of a stored file holding JSON that `json.load` decodes at
all — the files `clear()` (no category) counts. -/
def isDecodable (f : CacheFile) : Bool :=
  match f.content with
  | FContent.parsed _ => true
  | _ => false

/-- Truth of a stored file being decodable JSON whose value is a dict —
the files `clear(category)` counts when matching and may keep. -/
def isDecodableDict (f : CacheFile) : Bool :=
  match f.content with
  | FContent.parsed (JVal.jobj _) => true
  | _ => false

/-- Truth of a stored file being a decodable dict whose `"endpoint"`
field equals the label `e` under Python `==`. -/
def storedMatches (e : String) (f : CacheFile) : Bool :=
  match f.content with
  | FContent.parsed (JVal.jobj fields) =>
    pyEqStr (objGet (JVal.jobj fields) "endpoint") e
  | _ => false

/-! ## Helper lemmas: `str.replace` -/

/-- Fuel irrelevance for `pyReplaceFuel`: any two sufficient fuels
compute the same scan. -/
theorem pyReplaceFuel_congr (p : Char) (ps rep : List Char) :
    ∀ (n : ℕ) (s : List Char), s.length ≤ n → ∀ f g, s.length ≤ f →
      s.length ≤ g → pyReplaceFuel p ps rep f s = pyReplaceFuel p ps rep g s := by
  intro n
  induction n with
  | zero =>
    intro s hs f g hf hg
    have hnil : s = [] := List.eq_nil_of_length_eq_zero (Nat.le_zero.mp hs)
    subst hnil
    cases f <;> cases g <;> rfl
  | succ n ihn =>
    intro s hs f g hf hg
    cases s with
    | nil => cases f <;> cases g <;> rfl
    | cons c cs =>
      cases f with
      | zero => simp at hf
      | succ f' =>
        cases g with
        | zero => simp at hg
        | succ g' =>
          simp only [List.length_cons, Nat.succ_le_succ_iff] at hs hf hg
          simp only [pyReplaceFuel]
          by_cases hpre : isPre (p :: ps) (c :: cs) = true
          · rw [if_pos hpre, if_pos hpre]
            have hlen : (cs.drop ps.length).length ≤ cs.length := by
              simp only [List.length_drop]
              omega
            exact congrArg (rep ++ ·)
              (ihn (cs.drop ps.length) (le_trans hlen hs) f' g'
                (le_trans hlen hf) (le_trans hlen hg))
          · rw [if_neg hpre, if_neg hpre]
            exact congrArg (c :: ·) (ihn cs hs f' g' hf hg)

/-- One-step unfolding of `pyReplaceAux` on a non-empty string. -/
theorem pyReplaceAux_cons (p : Char) (ps rep : List Char) (c : Char)
    (cs : List Char) :
    pyReplaceAux p ps rep (c :: cs) =
      if isPre (p :: ps) (c :: cs) then
        rep ++ pyReplaceAux p ps rep (cs.drop ps.length)
      else
        c :: pyReplaceAux p ps rep cs := by
  show pyReplaceFuel p ps rep (cs.length + 1) (c :: cs) = _
  simp only [pyReplaceFuel]
  by_cases hpre : isPre (p :: ps) (c :: cs) = true
  · rw [if_pos hpre, if_pos hpre]
    refine congrArg (rep ++ ·) ?_
    exact pyReplaceFuel_congr p ps rep cs.length (cs.drop ps.length)
      (by simp only [List.length_drop]; omega) cs.length (cs.drop ps.length).length
      (by simp only [List.length_drop]; omega) le_rfl
  · rw [if_neg hpre, if_neg hpre]
    rfl

/-- A list is a prefix of itself followed by anything. -/
theorem isPre_append_self : ∀ a b : List Char, isPre a (a ++ b) = true := by
  intro a
  induction a with
  | nil => intro b; rfl
  | cons x xs ih => intro b; simpa [isPre] using ih b

/-- Replacement at the very front: when the string starts with the
pattern, the scan emits `rep` and continues after the pattern. -/
theorem pyReplaceAux_front (p : Char) (ps rep s : List Char) :
    pyReplaceAux p ps rep ((p :: ps) ++ s) = rep ++ pyReplaceAux p ps rep s := by
  rw [List.cons_append, pyReplaceAux_cons]
  rw [if_pos (by simpa using isPre_append_self (p :: ps) s)]
  rw [List.drop_left ps s]

/-- Scanning for `"https://"` walks over a leading `"http://"`
unchanged: no occurrence of the longer pattern can start inside the
seven leading characters. -/
theorem httpsScan_over_http (s : List Char) :
    pyReplaceAux 'h' ['t', 't', 'p', 's', ':', '/', '/'] [] (httpPat ++ s) =
      httpPat ++ pyReplaceAux 'h' ['t', 't', 'p', 's', ':', '/', '/'] [] s := by
  show pyReplaceAux 'h' _ []
      ('h' :: 't' :: 't' :: 'p' :: ':' :: '/' :: '/' :: s) = _
  rw [pyReplaceAux_cons, if_neg (by simp +decide [isPre])]
  rw [pyReplaceAux_cons, if_neg (by simp +decide [isPre])]
  rw [pyReplaceAux_cons, if_neg (by simp +decide [isPre])]
  rw [pyReplaceAux_cons, if_neg (by simp +decide [isPre])]
  rw [pyReplaceAux_cons, if_neg (by simp +decide [isPre])]
  rw [pyReplaceAux_cons, if_neg (by simp +decide [isPre])]
  rw [pyReplaceAux_cons, if_neg (by simp +decide [isPre])]
  rfl

/-- The cleaned identity string is the same whether the URL carries an
`https://` or an `http://` scheme. -/
theorem cleanChars_scheme (s : List Char) :
    cleanChars (httpsPat ++ s) = cleanChars (httpPat ++ s) := by
  have hHttps : pyReplace httpsPat [] (httpsPat ++ s) =
      pyReplaceAux 'h' ['t', 't', 'p', 's', ':', '/', '/'] [] s := by
    simpa [pyReplace, httpsPat] using
      pyReplaceAux_front 'h' ['t', 't', 'p', 's', ':', '/', '/'] [] s
  have hHttp : pyReplace httpsPat [] (httpPat ++ s) =
      httpPat ++ pyReplaceAux 'h' ['t', 't', 'p', 's', ':', '/', '/'] [] s := by
    simpa [pyReplace, httpsPat] using httpsScan_over_http s
  unfold cleanChars
  rw [hHttps, hHttp]
  show _ = pyReplace httpPat []
    ((['h', 't', 't', 'p', ':', '/', '/'] : List Char) ++ _)
  have := pyReplaceAux_front 'h' ['t', 't', 'p', ':', '/', '/'] []
    (pyReplaceAux 'h' ['t', 't', 'p', 's', ':', '/', '/'] [] s)
  simp only [pyReplace, httpPat]
  rw [this]
  rfl

/-- Two hex characters per byte. -/
theorem length_hexCat (bs : List ℕ) :
    ((bs.map hexByte).flatten).length = 2 * bs.length := by
  induction bs with
  | nil => rfl
  | cons b rest ih =>
    simp only [List.map_cons, List.flatten_cons, List.length_append, ih,
      hexByte, List.length_cons, List.length_nil]
    omega

/-- The MD5 digest is always sixteen bytes. -/
theorem length_md5Bytes (msg : List ℕ) : (md5Bytes msg).length = 16 := by
  unfold md5Bytes
  split
  simp [leBytes]

/-- C4: key derivation is scheme-insensitive — `deriveKey` of
`"https://" ++ s` and of `"http://" ++ s` agree for every identity
string `s` — and every derived key has the fixed width of an MD5 hex
digest, 32 characters, so identical logical identities always hash to
the same fixed-width key. -/
theorem cache_key_scheme_insensitive :
    (∀ s : String,
        F1Cache._get_cache_key ("https://" ++ s) =
          F1Cache._get_cache_key ("http://" ++ s)) ∧
    (∀ url : String, (F1Cache._get_cache_key url).length = 32) := by
  constructor
  · intro s
    have h : cleanChars (("https://" ++ s).data) =
        cleanChars (("http://" ++ s).data) := by
      rw [String.data_append, String.data_append]
      exact cleanChars_scheme s.data
    unfold F1Cache._get_cache_key
    rw [h]
  · intro url
    have hmk : ∀ l : List Char, (String.mk l).length = l.length := fun l => rfl
    unfold F1Cache._get_cache_key hexdigest
    rw [hmk, length_hexCat, length_md5Bytes]

/-! ## Helper lemmas: `str.split` and category derivation -/

/-- Splitting never produces an empty list of parts. -/
theorem pySplit_ne_nil (sep : Char) : ∀ l : List Char, pySplit sep l ≠ [] := by
  intro l
  induction l with
  | nil => simp [pySplit]
  | cons c cs ih =>
    by_cases h : c = sep
    · simp [pySplit, h]
    · simp only [pySplit, if_neg h]
      cases hsplit : pySplit sep cs with
      | nil => simp
      | cons hd tl => simp

/-- The first part of a split is the run of characters before the
first separator. -/
theorem pySplit_headD (sep : Char) : ∀ l : List Char,
    (pySplit sep l).headD [] = l.takeWhile (fun x => x ≠ sep) := by
  intro l
  induction l with
  | nil => rfl
  | cons c cs ih =>
    by_cases h : c = sep
    · simp [pySplit, h, List.takeWhile_cons]
    · simp only [pySplit, if_neg h]
      cases hsplit : pySplit sep cs with
      | nil => exact absurd hsplit (pySplit_ne_nil sep cs)
      | cons hd tl =>
        simp only [List.headD_cons, List.takeWhile_cons]
        rw [hsplit] at ih
        simp only [List.headD_cons] at ih
        simp [h, ih]

/-- Splitting a string that starts with a separator-free run followed
by a separator yields that run as the first part. -/
theorem pySplit_append (sep : Char) :
    ∀ a r : List Char, sep ∉ a →
      pySplit sep (a ++ sep :: r) = a :: pySplit sep r := by
  intro a
  induction a with
  | nil => intro r _; simp [pySplit]
  | cons x xs ih =>
    intro r ha
    have hx : ¬x = sep := by
      intro hx
      exact ha (by simp [hx])
    have hxs : sep ∉ xs := fun h => ha (List.mem_cons_of_mem _ h)
    simp only [List.cons_append, pySplit, if_neg hx]
    rw [show xs.append (sep :: r) = xs ++ sep :: r from rfl, ih r hxs]

/-- C9: for a URL of the shape
`https://<host>/<version>/<segment>?<query>` the derived category is
the first path segment after the version prefix with the query suffix
removed, and an identity that splits into fewer than five parts gets
category `"default"`. -/
theorem category_derivation :
    (∀ hst v seg q : List Char, '/' ∉ hst → '/' ∉ v → '/' ∉ seg →
      '?' ∉ seg →
      F1Cache._get_endpoint_type
          (String.mk (httpsPat ++ hst ++ '/' :: v ++ '/' :: seg ++ '?' :: q)) =
        String.mk seg) ∧
    (∀ url : String, (pySplit '/' url.data).length < 5 →
      F1Cache._get_endpoint_type url = "default") := by
  constructor
  · intro hst v seg q h1 h2 h3 h4
    have hdecomp : pySplit '/'
        (httpsPat ++ hst ++ '/' :: v ++ '/' :: seg ++ '?' :: q) =
        ['h', 't', 't', 'p', 's', ':'] :: [] :: hst :: v ::
          pySplit '/' (seg ++ '?' :: q) := by
      have e1 : httpsPat ++ hst ++ '/' :: v ++ '/' :: seg ++ '?' :: q =
          ['h', 't', 't', 'p', 's', ':'] ++ '/' ::
            ('/' :: (hst ++ '/' :: (v ++ '/' :: (seg ++ '?' :: q)))) := by
        simp [httpsPat]
      rw [e1, pySplit_append '/' _ _ (by decide)]
      rw [show ('/' :: (hst ++ '/' :: (v ++ '/' :: (seg ++ '?' :: q)))) =
        ([] : List Char) ++ '/' :: (hst ++ '/' :: (v ++ '/' :: (seg ++ '?' :: q)))
        from rfl]
      rw [pySplit_append '/' _ _ (by simp)]
      rw [pySplit_append '/' _ _ h1, pySplit_append '/' _ _ h2]
    show F1Cache._get_endpoint_type _ = _
    unfold F1Cache._get_endpoint_type
    rw [show (String.mk (httpsPat ++ hst ++ '/' :: v ++ '/' :: seg ++ '?' :: q)).data
      = httpsPat ++ hst ++ '/' :: v ++ '/' :: seg ++ '?' :: q from rfl]
    rw [hdecomp]
    have hlen : 1 ≤ (pySplit '/' (seg ++ '?' :: q)).length := by
      have := pySplit_ne_nil '/' (seg ++ '?' :: q)
      cases h : pySplit '/' (seg ++ '?' :: q) with
      | nil => exact absurd h this
      | cons a b => simp
    rw [if_pos (by simp only [List.length_cons]; omega)]
    have hget : (['h', 't', 't', 'p', 's', ':'] :: [] :: hst :: v ::
        pySplit '/' (seg ++ '?' :: q)).getD 4 [] =
        (pySplit '/' (seg ++ '?' :: q)).headD [] := by
      cases h : pySplit '/' (seg ++ '?' :: q) with
      | nil => exact absurd h (pySplit_ne_nil '/' _)
      | cons a b => simp [List.getD]
    have htake : (seg ++ '?' :: q).takeWhile (fun x => x ≠ '/') =
        seg ++ '?' :: q.takeWhile (fun x => x ≠ '/') := by
      rw [List.takeWhile_append_of_pos]
      · simp only [List.takeWhile_cons]
        rw [if_pos (by decide)]
      · intro a ha
        simp only [ne_eq, decide_eq_true_eq]
        intro heq
        exact h3 (heq ▸ ha)
    rw [hget, pySplit_headD '/' (seg ++ '?' :: q), htake,
      pySplit_append '?' _ _ h4]
    rfl
  · intro url h
    unfold F1Cache._get_endpoint_type
    rw [if_neg (by omega)]

/-- Witness for `category_derivation` at concrete inputs. -/
theorem category_derivation_witness :
    F1Cache._get_endpoint_type "https://x/v1/laps?a=1" = "laps" ∧
    F1Cache._get_endpoint_type "short" = "default" := by
  constructor
  · exact category_derivation.1 ['x'] ['v', '1'] ['l', 'a', 'p', 's']
      ['a', '=', '1'] (by decide) (by decide) (by decide) (by decide)
  · exact category_derivation.2 "short" (by decide)

/-! ## Helper lemmas: policies and the cache directory -/

/-- A key absent from an association list falls through to the
default. -/
theorem pyDictGet_not_mem (k : String) (d : ℚ) :
    ∀ l : List (String × ℚ), k ∉ l.map Prod.fst →
      F1Cache.pyDictGet l k d = d := by
  intro l
  induction l with
  | nil => intro _; rfl
  | cons p rest ih =>
    intro h
    have hk : ¬k = p.1 := by
      intro hk
      exact h (by simp [hk])
    obtain ⟨k', v⟩ := p
    simp only [F1Cache.pyDictGet, if_neg hk]
    exact ih (fun hm => h (List.mem_cons_of_mem _ hm))

/-- A positive default and positive table values make every lookup
positive. -/
theorem pyDictGet_pos : ∀ (l : List (String × ℚ)) (k : String) (d : ℚ),
    0 < d → (∀ p ∈ l, 0 < p.2) → 0 < F1Cache.pyDictGet l k d := by
  intro l
  induction l with
  | nil =>
    intro k d hd _
    simpa [F1Cache.pyDictGet] using hd
  | cons p rest ih =>
    intro k d hd hall
    obtain ⟨k', v⟩ := p
    simp only [F1Cache.pyDictGet]
    by_cases h : k = k'
    · rw [if_pos h]
      exact hall (k', v) (by simp)
    · rw [if_neg h]
      exact ih k d hd (fun q hq => hall q (List.mem_cons_of_mem _ hq))

/-- Every expiration duration the table can yield is positive. -/
theorem hoursFor_pos (ep : String) : 0 < F1Cache.hoursFor ep := by
  have hdef : F1Cache.pyDictGet F1Cache.expiration_policies "default" 0 = 6 := by
    rfl
  unfold F1Cache.hoursFor
  rw [hdef]
  refine pyDictGet_pos _ ep 6 (by norm_num) ?_
  intro p hp
  simp only [F1Cache.expiration_policies, List.mem_cons,
    List.not_mem_nil, or_false] at hp
  rcases hp with h | h | h | h | h | h | h | h | h <;> subst h <;> norm_num

/-- An overwritten file is found by its own name. -/
theorem cacheLookup_insert_self (k : String) (f : CacheFile) :
    ∀ c : Cache, cacheLookup k (cacheInsert k f c) = some f := by
  intro c
  induction c with
  | nil => simp [cacheInsert, cacheLookup]
  | cons p rest ih =>
    obtain ⟨k', f'⟩ := p
    by_cases h : k = k'
    · simp [cacheInsert, cacheLookup, h]
    · simp only [cacheInsert, if_neg h, cacheLookup]
      exact ih

/-- Overwriting one file leaves every other name unchanged. -/
theorem cacheLookup_insert_ne (k k' : String) (f : CacheFile)
    (h : k' ≠ k) :
    ∀ c : Cache, cacheLookup k' (cacheInsert k f c) = cacheLookup k' c := by
  intro c
  induction c with
  | nil => simp [cacheInsert, cacheLookup, h]
  | cons p rest ih =>
    obtain ⟨k0, f0⟩ := p
    by_cases hk : k = k0
    · subst hk
      simp [cacheInsert, cacheLookup, h]
    · simp only [cacheInsert, if_neg hk, cacheLookup]
      by_cases hk' : k' = k0
      · simp [hk']
      · rw [if_neg hk', if_neg hk']
        exact ih

/-! ## Helper lemmas: `F1Cache.get` case analysis -/

/-- Lookup with no stored file is a miss that changes nothing. -/
theorem get_no_entry (url : String) (now : ℚ) (c : Cache)
    (h : cacheLookup (F1Cache.fileName url) c = none) :
    F1Cache.get url now c = (Except.ok none, c) := by
  simp only [F1Cache.get, h]

/-- Lookup of a JSON-undecodable file is a miss that deletes the
file. -/
theorem get_undecodable (url : String) (now : ℚ) (c : Cache) (sz : ℕ)
    (h : cacheLookup (F1Cache.fileName url) c =
      some ⟨FContent.malformed, sz⟩) :
    F1Cache.get url now c =
      (Except.ok none, cacheDelete (F1Cache.fileName url) c) := by
  simp only [F1Cache.get, h]

/-- Lookup of a file that is not valid text raises
`UnicodeDecodeError` and changes nothing. -/
theorem get_bad_encoding (url : String) (now : ℚ) (c : Cache) (sz : ℕ)
    (h : cacheLookup (F1Cache.fileName url) c =
      some ⟨FContent.badEncoding, sz⟩) :
    F1Cache.get url now c = (Except.error PyErr.unicodeDecodeError, c) := by
  simp only [F1Cache.get, h]

/-- Lookup of a decodable dict without a `cached_at` field is a miss
that deletes the file (`KeyError` is caught). -/
theorem get_missing_cached_at (url : String) (now : ℚ) (c : Cache)
    (sz : ℕ) (fields : List (String × JVal))
    (h : cacheLookup (F1Cache.fileName url) c =
      some ⟨FContent.parsed (JVal.jobj fields), sz⟩)
    (h2 : objGet (JVal.jobj fields) "cached_at" = none) :
    F1Cache.get url now c =
      (Except.ok none, cacheDelete (F1Cache.fileName url) c) := by
  simp only [F1Cache.get, h, h2]

/-- Lookup of a decodable dict whose `cached_at` is a non-ISO string
raises `ValueError` and changes nothing. -/
theorem get_bad_timestamp (url : String) (now : ℚ) (c : Cache) (sz : ℕ)
    (fields : List (String × JVal)) (s : String)
    (h : cacheLookup (F1Cache.fileName url) c =
      some ⟨FContent.parsed (JVal.jobj fields), sz⟩)
    (h2 : objGet (JVal.jobj fields) "cached_at" = some (JVal.jstr s)) :
    F1Cache.get url now c = (Except.error PyErr.valueError, c) := by
  simp only [F1Cache.get, h, h2]

/-- Lookup of a well-formed entry written by `set` at time `T`: a hit
returning the payload exactly when `now` is strictly before the expiry
instant, a silent miss otherwise, the cache unchanged either way. -/
theorem get_wellformed (url : String) (P : JVal) (T : ℚ) (sz : ℕ)
    (now : ℚ) (c : Cache)
    (h : cacheLookup (F1Cache.fileName url) c =
      some ⟨FContent.parsed (F1Cache.entryJson url P T), sz⟩) :
    F1Cache.get url now c =
      ((if now < T + F1Cache.hoursFor (F1Cache._get_endpoint_type url) then
          Except.ok (some P)
        else
          Except.ok none), c) := by
  by_cases hc : now < T + F1Cache.hoursFor (F1Cache._get_endpoint_type url)
  · simp [F1Cache.get, h, F1Cache.entryJson, objGet, List.find?, hc]
  · simp [F1Cache.get, h, F1Cache.entryJson, objGet, List.find?, hc]

/-- C2: an entry stored at `T` for a category with TTL `H` hits
exactly when `now < T + H` (strict comparison, so the boundary instant
is already expired), and categories absent from the policy table use
the default duration of 6 hours. -/
theorem cache_freshness_boundary :
    (∀ (url : String) (P : JVal) (T : ℚ) (sz : ℕ) (now : ℚ) (c : Cache),
      cacheLookup (F1Cache.fileName url) c =
        some ⟨FContent.parsed (F1Cache.entryJson url P T), sz⟩ →
      F1Cache.get url now c =
        ((if now < T + F1Cache.hoursFor (F1Cache._get_endpoint_type url) then
            Except.ok (some P)
          else
            Except.ok none), c)) ∧
    (∀ ep : String, ep ∉ F1Cache.expiration_policies.map Prod.fst →
      F1Cache.hoursFor ep = 6) := by
  constructor
  · intro url P T sz now c h
    exact get_wellformed url P T sz now c h
  · intro ep h
    unfold F1Cache.hoursFor
    rw [pyDictGet_not_mem ep _ _ h]
    rfl

set_option maxRecDepth 10000 in
/-- Witness for `cache_freshness_boundary`: a `laps` entry stored at
time 0 (TTL 1 hour) hits at time 1/2, misses at time 1 exactly, and an
unknown category falls back to 6 hours. -/
theorem cache_freshness_boundary_witness :
    F1Cache.get "https://x/v1/laps?a=1" (1 / 2)
        [(F1Cache.fileName "https://x/v1/laps?a=1",
          ⟨FContent.parsed
            (F1Cache.entryJson "https://x/v1/laps?a=1" (JVal.jstr "payload") 0),
           5⟩)] =
      (Except.ok (some (JVal.jstr "payload")),
        [(F1Cache.fileName "https://x/v1/laps?a=1",
          ⟨FContent.parsed
            (F1Cache.entryJson "https://x/v1/laps?a=1" (JVal.jstr "payload") 0),
           5⟩)]) ∧
    F1Cache.get "https://x/v1/laps?a=1" 1
        [(F1Cache.fileName "https://x/v1/laps?a=1",
          ⟨FContent.parsed
            (F1Cache.entryJson "https://x/v1/laps?a=1" (JVal.jstr "payload") 0),
           5⟩)] =
      (Except.ok none,
        [(F1Cache.fileName "https://x/v1/laps?a=1",
          ⟨FContent.parsed
            (F1Cache.entryJson "https://x/v1/laps?a=1" (JVal.jstr "payload") 0),
           5⟩)]) ∧
    F1Cache.hoursFor "weird" = 6 := by
  refine ⟨?_, ?_, cache_freshness_boundary.2 "weird" (by decide)⟩
  · have h := cache_freshness_boundary.1 "https://x/v1/laps?a=1"
      (JVal.jstr "payload") 0 5 (1 / 2)
      [(F1Cache.fileName "https://x/v1/laps?a=1",
        ⟨FContent.parsed
          (F1Cache.entryJson "https://x/v1/laps?a=1" (JVal.jstr "payload") 0),
         5⟩)] rfl
    rw [show (0 : ℚ) +
      F1Cache.hoursFor (F1Cache._get_endpoint_type "https://x/v1/laps?a=1") = 1
      from by rw [zero_add]; rfl] at h
    rw [if_pos (by norm_num : (1 / 2 : ℚ) < 1)] at h
    exact h
  · have h := cache_freshness_boundary.1 "https://x/v1/laps?a=1"
      (JVal.jstr "payload") 0 5 1
      [(F1Cache.fileName "https://x/v1/laps?a=1",
        ⟨FContent.parsed
          (F1Cache.entryJson "https://x/v1/laps?a=1" (JVal.jstr "payload") 0),
         5⟩)] rfl
    rw [show (0 : ℚ) +
      F1Cache.hoursFor (F1Cache._get_endpoint_type "https://x/v1/laps?a=1") = 1
      from by rw [zero_add]; rfl] at h
    rw [if_neg (by norm_num : ¬(1 : ℚ) < 1)] at h
    exact h

/-- C1 (amended): lookup fails soft — returning absent, never
raising — when no entry exists, when the entry is JSON-undecodable
(deleted as a side effect), when a decodable dict entry lacks the
`cached_at` field (also deleted), and when a well-formed entry has
expired; but an entry whose `cached_at` value is a string that
`fromisoformat` rejects makes lookup raise `ValueError` instead of
degrading to absent, because the `except` clause catches only
`JSONDecodeError` and `KeyError`. -/
theorem cache_lookup_fails_soft :
    (∀ (url : String) (now : ℚ) (c : Cache),
      cacheLookup (F1Cache.fileName url) c = none →
      F1Cache.get url now c = (Except.ok none, c)) ∧
    (∀ (url : String) (now : ℚ) (c : Cache) (sz : ℕ),
      cacheLookup (F1Cache.fileName url) c =
        some ⟨FContent.malformed, sz⟩ →
      F1Cache.get url now c =
        (Except.ok none, cacheDelete (F1Cache.fileName url) c)) ∧
    (∀ (url : String) (now : ℚ) (c : Cache) (sz : ℕ)
        (fields : List (String × JVal)),
      cacheLookup (F1Cache.fileName url) c =
        some ⟨FContent.parsed (JVal.jobj fields), sz⟩ →
      objGet (JVal.jobj fields) "cached_at" = none →
      F1Cache.get url now c =
        (Except.ok none, cacheDelete (F1Cache.fileName url) c)) ∧
    (∀ (url : String) (P : JVal) (T : ℚ) (sz : ℕ) (now : ℚ) (c : Cache),
      cacheLookup (F1Cache.fileName url) c =
        some ⟨FContent.parsed (F1Cache.entryJson url P T), sz⟩ →
      ¬now < T + F1Cache.hoursFor (F1Cache._get_endpoint_type url) →
      F1Cache.get url now c = (Except.ok none, c)) ∧
    (∀ (url : String) (now : ℚ) (c : Cache) (sz : ℕ)
        (fields : List (String × JVal)) (s : String),
      cacheLookup (F1Cache.fileName url) c =
        some ⟨FContent.parsed (JVal.jobj fields), sz⟩ →
      objGet (JVal.jobj fields) "cached_at" = some (JVal.jstr s) →
      F1Cache.get url now c = (Except.error PyErr.valueError, c)) := by
  refine ⟨get_no_entry, get_undecodable, get_missing_cached_at, ?_,
    get_bad_timestamp⟩
  intro url P T sz now c h hexp
  rw [get_wellformed url P T sz now c h, if_neg hexp]

set_option maxRecDepth 10000 in
/-- Counterexample to C1 as stated: a cache whose stored entry has a
malformed `cached_at` string makes `F1Cache.get` raise `ValueError`
(modelled as `Except.error`) instead of returning absent, and the
corrupt entry is not deleted. -/
theorem cache_lookup_bad_timestamp_raises :
    F1Cache.get "https://x/v1/laps?a=1" 0
        [(F1Cache.fileName "https://x/v1/laps?a=1",
          ⟨FContent.parsed (JVal.jobj [("cached_at", JVal.jstr "not-a-date")]),
           5⟩)] =
      (Except.error PyErr.valueError,
        [(F1Cache.fileName "https://x/v1/laps?a=1",
          ⟨FContent.parsed (JVal.jobj [("cached_at", JVal.jstr "not-a-date")]),
           5⟩)]) := by
  rfl

set_option maxRecDepth 10000 in
/-- Witness for `cache_lookup_fails_soft` at concrete inputs: an
absent entry, a JSON-undecodable entry (deleted), a dict entry without
`cached_at` (deleted), and an expired entry. -/
theorem cache_lookup_fails_soft_witness :
    F1Cache.get "https://x/v1/laps?a=1" 0 [] = (Except.ok none, []) ∧
    F1Cache.get "https://x/v1/laps?a=1" 0
        [(F1Cache.fileName "https://x/v1/laps?a=1",
          ⟨FContent.malformed, 9⟩)] =
      (Except.ok none,
        cacheDelete (F1Cache.fileName "https://x/v1/laps?a=1")
          [(F1Cache.fileName "https://x/v1/laps?a=1",
            ⟨FContent.malformed, 9⟩)]) ∧
    F1Cache.get "https://x/v1/laps?a=1" 0
        [(F1Cache.fileName "https://x/v1/laps?a=1",
          ⟨FContent.parsed (JVal.jobj [("endpoint", JVal.jstr "laps")]), 9⟩)] =
      (Except.ok none,
        cacheDelete (F1Cache.fileName "https://x/v1/laps?a=1")
          [(F1Cache.fileName "https://x/v1/laps?a=1",
            ⟨FContent.parsed (JVal.jobj [("endpoint", JVal.jstr "laps")]),
             9⟩)]) ∧
    F1Cache.get "https://x/v1/laps?a=1" 2
        [(F1Cache.fileName "https://x/v1/laps?a=1",
          ⟨FContent.parsed
            (F1Cache.entryJson "https://x/v1/laps?a=1" (JVal.jstr "payload") 0),
           5⟩)] =
      (Except.ok none,
        [(F1Cache.fileName "https://x/v1/laps?a=1",
          ⟨FContent.parsed
            (F1Cache.entryJson "https://x/v1/laps?a=1" (JVal.jstr "payload") 0),
           5⟩)]) := by
  refine ⟨cache_lookup_fails_soft.1 _ 0 [] rfl,
    cache_lookup_fails_soft.2.1 _ 0 _ 9 rfl,
    cache_lookup_fails_soft.2.2.1 _ 0 _ 9 _ rfl rfl,
    cache_lookup_fails_soft.2.2.2.1 "https://x/v1/laps?a=1"
      (JVal.jstr "payload") 0 5 2 _ rfl ?_⟩
  rw [show (0 : ℚ) +
    F1Cache.hoursFor (F1Cache._get_endpoint_type "https://x/v1/laps?a=1") = 1
    from by rw [zero_add]; rfl]
  norm_num

/-- C10: every record written by `set` stores under `"endpoint"`
exactly the category that `_get_endpoint_type` derives from the same
URL — the category `get` re-derives to select the expiration policy —
so `clear`'s match test on a stored record agrees with string equality
against the derived category, and `stats` counts the record under that
same derived category. -/
theorem stored_category_consistent :
    (∀ (url : String) (data : JVal) (t : ℚ),
      objGet (F1Cache.entryJson url data t) "endpoint" =
        some (JVal.jstr (F1Cache._get_endpoint_type url))) ∧
    (∀ (url : String) (data : JVal) (t : ℚ) (e : String),
      F1Cache.clearMatches (some e) (F1Cache.entryJson url data t) =
        decide (F1Cache._get_endpoint_type url = e)) ∧
    (∀ (url : String) (data : JVal) (t : ℚ) (st : F1Cache.StatsResult)
        (sz : ℕ),
      (F1Cache.statsStep st sz (F1Cache.entryJson url data t)).by_endpoint =
        F1Cache.bumpEndpoint (JVal.jstr (F1Cache._get_endpoint_type url))
          st.by_endpoint) := by
  refine ⟨?_, ?_, ?_⟩
  · intro url data t
    simp +decide [F1Cache.entryJson, objGet, List.find?]
  · intro url data t e
    simp +decide [F1Cache.clearMatches, pyEqStr, F1Cache.entryJson, objGet,
      List.find?]
  · intro url data t st sz
    simp +decide [F1Cache.statsStep, F1Cache.entryJson, objGet, List.find?]

/-! ## Helper lemmas: `F1Cache.clear` -/

/-- Characterization of the `clear()` scan with no category: every
file is deleted; every decodable file (dict or not) is counted, since
`endpoint is None` short-circuits before `.get` can raise. -/
theorem clearScan_none_eq : ∀ c : Cache,
    F1Cache.clearScan none c =
      ((c.filter (fun kf => isDecodable kf.2)).length, []) := by
  intro c
  induction c with
  | nil => rfl
  | cons p rest ih =>
    obtain ⟨k, f⟩ := p
    obtain ⟨cont, sz⟩ := f
    cases cont with
    | parsed j =>
      simp [F1Cache.clearScan, ih, List.filter_cons, isDecodable]
    | malformed =>
      simp [F1Cache.clearScan, ih, List.filter_cons, isDecodable]
    | badEncoding =>
      simp [F1Cache.clearScan, ih, List.filter_cons, isDecodable]

/-- Characterization of the `clear(category)` scan: decodable dict
files whose stored endpoint differs from the label are kept; every
other file is deleted; only matching dict files are counted. -/
theorem clearScan_some_eq (e : String) : ∀ c : Cache,
    F1Cache.clearScan (some e) c =
      ((c.filter (fun kf => storedMatches e kf.2)).length,
        c.filter (fun kf => isDecodableDict kf.2 && !storedMatches e kf.2)) := by
  intro c
  induction c with
  | nil => rfl
  | cons p rest ih =>
    obtain ⟨k, f⟩ := p
    obtain ⟨cont, sz⟩ := f
    cases cont with
    | parsed j =>
      cases j with
      | jobj fields =>
        by_cases hm : F1Cache.clearMatches (some e) (JVal.jobj fields) = true
        · simp [F1Cache.clearScan, ih, List.filter_cons, isDecodableDict,
            storedMatches, F1Cache.clearMatches, hm] at hm ⊢
          simp [hm]
        · simp [F1Cache.clearScan, ih, List.filter_cons, isDecodableDict,
            storedMatches, F1Cache.clearMatches, hm] at hm ⊢
          simp [hm]
      | jnull =>
        simp [F1Cache.clearScan, ih, List.filter_cons, isDecodableDict,
          storedMatches]
      | jbool b =>
        simp [F1Cache.clearScan, ih, List.filter_cons, isDecodableDict,
          storedMatches]
      | jnum q =>
        simp [F1Cache.clearScan, ih, List.filter_cons, isDecodableDict,
          storedMatches]
      | jstr s =>
        simp [F1Cache.clearScan, ih, List.filter_cons, isDecodableDict,
          storedMatches]
      | jtime t =>
        simp [F1Cache.clearScan, ih, List.filter_cons, isDecodableDict,
          storedMatches]
      | jarr l =>
        simp [F1Cache.clearScan, ih, List.filter_cons, isDecodableDict,
          storedMatches]
    | malformed =>
      simp [F1Cache.clearScan, ih, List.filter_cons, isDecodableDict,
        storedMatches]
    | badEncoding =>
      simp [F1Cache.clearScan, ih, List.filter_cons, isDecodableDict,
        storedMatches]

/-- C3 (amended): `clear()` deletes every file but the count it
reports covers only the entries whose JSON decodes (files that fail to
decode are deleted without being counted); `clear(category)` deletes
exactly the decodable dict entries whose stored category matches,
plus, unconditionally, every file that fails to parse as a dict,
reporting the count of matching entries only; and in both forms the
count is printed while the function itself returns `None`. -/
theorem clear_semantics :
    (∀ c : Cache,
      F1Cache.clear none c =
        { printed := (c.filter (fun kf => isDecodable kf.2)).length,
          ret := none, cache := [] }) ∧
    (∀ (e : String) (c : Cache),
      F1Cache.clear (some e) c =
        { printed := (c.filter (fun kf => storedMatches e kf.2)).length,
          ret := none,
          cache :=
            c.filter (fun kf => isDecodableDict kf.2 && !storedMatches e kf.2) }) := by
  constructor
  · intro c
    simp [F1Cache.clear, clearScan_none_eq]
  · intro e c
    simp [F1Cache.clear, clearScan_some_eq]

/-- Counterexample to C3 as stated: a cache holding one unparseable
file.  `clear()` deletes it (the cache is empty afterwards, one entry
deleted), yet the reported count is 0, not 1 — and the function
returns `None`, not a count. -/
theorem clear_count_mismatch :
    (F1Cache.clear none [("x.json", ⟨FContent.malformed, 3⟩)]).cache = [] ∧
    ([("x.json", (⟨FContent.malformed, 3⟩ : CacheFile))] : Cache).length = 1 ∧
    (F1Cache.clear none [("x.json", ⟨FContent.malformed, 3⟩)]).printed = 0 ∧
    (F1Cache.clear none [("x.json", ⟨FContent.malformed, 3⟩)]).ret = none := by
  refine ⟨rfl, rfl, rfl, rfl⟩

/-- C8 (amended): the stats scan never modifies the cache, and files
that `json.load` cannot decode (or cannot even read as text) are
skipped entirely; but a decodable entry is counted into `total` and
`total_size` unconditionally — even when a later step of the scan
fails, e.g. a missing or invalid `cached_at` (whose failure only
leaves `oldest`/`newest` unchanged) — because the source increments
those fields before touching `cached_at`. -/
theorem stats_scan_semantics :
    (∀ c : Cache, (F1Cache.stats c).2 = c) ∧
    (∀ (st : F1Cache.StatsResult) (k : String) (sz : ℕ) (rest : Cache),
      F1Cache.statsScan st ((k, ⟨FContent.malformed, sz⟩) :: rest) =
        F1Cache.statsScan st rest ∧
      F1Cache.statsScan st ((k, ⟨FContent.badEncoding, sz⟩) :: rest) =
        F1Cache.statsScan st rest) ∧
    (∀ (st : F1Cache.StatsResult) (sz : ℕ) (j : JVal),
      (F1Cache.statsStep st sz j).total = st.total + 1 ∧
      (F1Cache.statsStep st sz j).total_size = st.total_size + sz) ∧
    (∀ (st : F1Cache.StatsResult) (sz : ℕ)
        (fields : List (String × JVal)),
      objGet (JVal.jobj fields) "cached_at" = none →
      (F1Cache.statsStep st sz (JVal.jobj fields)).oldest = st.oldest ∧
      (F1Cache.statsStep st sz (JVal.jobj fields)).newest = st.newest) := by
  refine ⟨fun c => rfl, fun st k sz rest => ⟨rfl, rfl⟩, ?_, ?_⟩
  · intro st sz j
    cases j <;> simp only [F1Cache.statsStep] <;>
      first
        | exact ⟨trivial, trivial⟩
        | exact ⟨rfl, rfl⟩
        | (constructor <;> (split <;> try rfl) <;> (split <;> rfl))
  · intro st sz fields h
    simp only [F1Cache.statsStep, h]
    constructor <;> (split <;> rfl)

/-- Counterexample to C8 as stated: one stored entry whose JSON
decodes but whose `cached_at` is missing, so the scan of that entry
fails with `KeyError` part-way through.  The claim says such an entry
is "neither counted in any statistic nor deleted", yet `stats` reports
`total = 1`, `total_size = 7` and one `"laps"` entry (only the
timestamps are left untouched). -/
theorem stats_counts_unparseable_entry :
    (F1Cache.stats
        [("f.json",
          ⟨FContent.parsed (JVal.jobj [("endpoint", JVal.jstr "laps")]),
           7⟩)]).1 =
      { total := 1, by_endpoint := [(JVal.jstr "laps", 1)], oldest := none,
        newest := none, total_size := 7 } := by
  rfl

/-- Witness for `stats_scan_semantics` at concrete inputs. -/
theorem stats_scan_semantics_witness :
    (F1Cache.stats [("f.json", ⟨FContent.malformed, 3⟩)]).2 =
      [("f.json", ⟨FContent.malformed, 3⟩)] ∧
    F1Cache.statsScan ⟨0, [], none, none, 0⟩
        [("f.json", ⟨FContent.malformed, 3⟩)] = ⟨0, [], none, none, 0⟩ ∧
    (F1Cache.statsStep ⟨0, [], none, none, 0⟩ 7
        (JVal.jobj [("endpoint", JVal.jstr "laps")])).total = 1 ∧
    (F1Cache.statsStep ⟨0, [], none, none, 0⟩ 7
        (JVal.jobj [("endpoint", JVal.jstr "laps")])).oldest = none := by
  refine ⟨stats_scan_semantics.1 _, ?_, ?_, ?_⟩
  · exact ((stats_scan_semantics.2.1 ⟨0, [], none, none, 0⟩ "f.json" 3
      []).1).trans rfl
  · exact ((stats_scan_semantics.2.2.1 ⟨0, [], none, none, 0⟩ 7
      (JVal.jobj [("endpoint", JVal.jstr "laps")])).1).trans rfl
  · exact ((stats_scan_semantics.2.2.2 ⟨0, [], none, none, 0⟩ 7
      [("endpoint", JVal.jstr "laps")] rfl).1).trans rfl

/-! ## Helper lemmas: the network leg -/

/-- The network leg always performs the network call. -/
theorem networkLeg_called (url : String) (net : NetResult) (now : ℚ)
    (c : Cache) : (networkLeg url net now c).networkCalled = true := by
  cases net <;> rfl

/-- The returned value of the network leg does not depend on the cache
state it starts from. -/
theorem networkLeg_result_congr (url : String) (net : NetResult) (now : ℚ)
    (c c' : Cache) :
    (networkLeg url net now c).result = (networkLeg url net now c').result := by
  cases net <;> rfl

/-- C5 (amended): a network round trip happens exactly when the value
the cache lookup hands back is Python `None` or bypass is requested —
on a hit whose payload is not JSON `null` fetch returns it at once
with no network call, and with `bypassCache = true` the network is
always called and the returned value is computed without consulting
the existing cache state; but a hit whose stored payload is JSON
`null` decodes to `None`, fails the `is not None` test, and triggers a
network call although a fresh entry exists. -/
theorem fetch_network_iff_miss_or_bypass :
    (∀ (url : String) (net : NetResult) (now : ℚ) (c c' : Cache) (d : JVal),
      d ≠ JVal.jnull →
      F1Cache.get url now c = (Except.ok (some d), c') →
      fetch_json url false net now c =
        { result := Except.ok (some d), cache := c',
          networkCalled := false }) ∧
    (∀ (url : String) (net : NetResult) (now : ℚ) (c : Cache),
      (fetch_json url true net now c).networkCalled = true ∧
      (fetch_json url true net now c).result =
        (fetch_json url true net now []).result) ∧
    (∀ (url : String) (b : Bool) (net : NetResult) (now : ℚ) (c : Cache),
      (fetch_json url b net now c).networkCalled = true ↔
        (b = true ∨ (F1Cache.get url now c).1 = Except.ok none ∨
          (F1Cache.get url now c).1 = Except.ok (some JVal.jnull))) := by
  refine ⟨?_, ?_, ?_⟩
  · intro url net now c c' d hd h
    have hnn : isNotNone (some d) = true := by
      cases d <;> first | exact absurd rfl hd | rfl
    simp [fetch_json, h, hnn]
  · intro url net now c
    exact ⟨networkLeg_called url net now c,
      networkLeg_result_congr url net now c []⟩
  · intro url b net now c
    cases b with
    | true => simp [fetch_json, networkLeg_called]
    | false =>
      rcases hg : F1Cache.get url now c with ⟨r, c'⟩
      cases r with
      | error e => simp [fetch_json, hg]
      | ok o =>
        cases o with
        | none => simp [fetch_json, hg, networkLeg_called, isNotNone]
        | some d =>
          cases d <;>
            simp [fetch_json, hg, networkLeg_called, isNotNone]

set_option maxRecDepth 10000 in
/-- Counterexample to C5 as stated: a fresh cache entry whose stored
payload is JSON `null`.  The lookup is a hit — `F1Cache.get` returns
the stored payload — yet `fetch_json` with `bypassCache = false`
performs a network round trip, because the payload decodes to Python
`None` and fails the `cached_data is not None` test. -/
theorem fetch_null_payload_calls_network :
    F1Cache.get "https://x/v1/laps?a=1" (1 / 2)
        [(F1Cache.fileName "https://x/v1/laps?a=1",
          ⟨FContent.parsed
            (F1Cache.entryJson "https://x/v1/laps?a=1" JVal.jnull 0), 5⟩)] =
      (Except.ok (some JVal.jnull),
        [(F1Cache.fileName "https://x/v1/laps?a=1",
          ⟨FContent.parsed
            (F1Cache.entryJson "https://x/v1/laps?a=1" JVal.jnull 0), 5⟩)]) ∧
    (fetch_json "https://x/v1/laps?a=1" false NetResult.timeout (1 / 2)
        [(F1Cache.fileName "https://x/v1/laps?a=1",
          ⟨FContent.parsed
            (F1Cache.entryJson "https://x/v1/laps?a=1" JVal.jnull 0),
           5⟩)]).networkCalled = true := by
  have h := get_wellformed "https://x/v1/laps?a=1" JVal.jnull 0 5 (1 / 2)
    [(F1Cache.fileName "https://x/v1/laps?a=1",
      ⟨FContent.parsed (F1Cache.entryJson "https://x/v1/laps?a=1" JVal.jnull 0),
       5⟩)] rfl
  rw [show (0 : ℚ) +
    F1Cache.hoursFor (F1Cache._get_endpoint_type "https://x/v1/laps?a=1") = 1
    from by rw [zero_add]; rfl] at h
  rw [if_pos (by norm_num : (1 / 2 : ℚ) < 1)] at h
  refine ⟨h, ?_⟩
  unfold fetch_json
  rw [if_neg (by decide : ¬(false = true)), h]
  exact networkLeg_called "https://x/v1/laps?a=1" NetResult.timeout (1 / 2)
    [(F1Cache.fileName "https://x/v1/laps?a=1",
      ⟨FContent.parsed (F1Cache.entryJson "https://x/v1/laps?a=1" JVal.jnull 0),
       5⟩)]

set_option maxRecDepth 10000 in
/-- Witness for `fetch_network_iff_miss_or_bypass`: a fresh `laps`
entry is served from the cache with no network call. -/
theorem fetch_network_iff_miss_or_bypass_witness :
    fetch_json "https://x/v1/laps?a=1" false NetResult.timeout (1 / 2)
        [(F1Cache.fileName "https://x/v1/laps?a=1",
          ⟨FContent.parsed
            (F1Cache.entryJson "https://x/v1/laps?a=1" (JVal.jstr "payload") 0),
           5⟩)] =
      { result := Except.ok (some (JVal.jstr "payload")),
        cache :=
          [(F1Cache.fileName "https://x/v1/laps?a=1",
            ⟨FContent.parsed
              (F1Cache.entryJson "https://x/v1/laps?a=1" (JVal.jstr "payload")
                0),
             5⟩)],
        networkCalled := false } := by
  have h := get_wellformed "https://x/v1/laps?a=1" (JVal.jstr "payload") 0 5
    (1 / 2)
    [(F1Cache.fileName "https://x/v1/laps?a=1",
      ⟨FContent.parsed
        (F1Cache.entryJson "https://x/v1/laps?a=1" (JVal.jstr "payload") 0),
       5⟩)] rfl
  rw [show (0 : ℚ) +
    F1Cache.hoursFor (F1Cache._get_endpoint_type "https://x/v1/laps?a=1") = 1
    from by rw [zero_add]; rfl] at h
  rw [if_pos (by norm_num : (1 / 2 : ℚ) < 1)] at h
  exact fetch_network_iff_miss_or_bypass.1 _ NetResult.timeout _ _ _ _
    (by simp) h

/-- C6: on a miss followed by a successful network call returning `P`,
fetch stores `P` (overwriting exactly the one entry for the key,
leaving every other key unchanged) and returns `P`, and an immediate
subsequent cache lookup at the same instant is a hit returning `P`
with no network involvement. -/
theorem fetch_write_through :
    ∀ (url : String) (P : JVal) (now : ℚ) (c c' : Cache),
      F1Cache.get url now c = (Except.ok none, c') →
      fetch_json url false (NetResult.success P) now c =
        { result := Except.ok (some P), cache := F1Cache.set url P now c',
          networkCalled := true } ∧
      cacheLookup (F1Cache.fileName url) (F1Cache.set url P now c') =
        some ⟨FContent.parsed (F1Cache.entryJson url P now),
          F1Cache.entrySize (F1Cache.entryJson url P now)⟩ ∧
      (∀ k : String, k ≠ F1Cache.fileName url →
        cacheLookup k (F1Cache.set url P now c') = cacheLookup k c') ∧
      F1Cache.get url now (F1Cache.set url P now c') =
        (Except.ok (some P), F1Cache.set url P now c') := by
  intro url P now c c' h
  have hl : cacheLookup (F1Cache.fileName url) (F1Cache.set url P now c') =
      some ⟨FContent.parsed (F1Cache.entryJson url P now),
        F1Cache.entrySize (F1Cache.entryJson url P now)⟩ :=
    cacheLookup_insert_self _ _ c'
  refine ⟨?_, hl, ?_, ?_⟩
  · simp [fetch_json, h, isNotNone, networkLeg]
  · intro k hk
    exact cacheLookup_insert_ne _ _ _ hk c'
  · rw [get_wellformed url P now _ now _ hl,
      if_pos (lt_add_of_pos_right now (hoursFor_pos _))]

/-- Witness for `fetch_write_through`: a miss on the empty cache
followed by a successful fetch, then a hit on the written entry. -/
theorem fetch_write_through_witness :
    fetch_json "https://x/v1/laps?a=1" false
        (NetResult.success (JVal.jstr "pay")) 0 [] =
      { result := Except.ok (some (JVal.jstr "pay")),
        cache := F1Cache.set "https://x/v1/laps?a=1" (JVal.jstr "pay") 0 [],
        networkCalled := true } ∧
    F1Cache.get "https://x/v1/laps?a=1" 0
        (F1Cache.set "https://x/v1/laps?a=1" (JVal.jstr "pay") 0 []) =
      (Except.ok (some (JVal.jstr "pay")),
        F1Cache.set "https://x/v1/laps?a=1" (JVal.jstr "pay") 0 []) := by
  have h := fetch_write_through "https://x/v1/laps?a=1" (JVal.jstr "pay") 0
    [] [] rfl
  exact ⟨h.1, h.2.2.2⟩

/-- C7 (amended): the network-failure path itself never writes to the
cache — on bypass, or when the key has no entry, or when the key holds
a parseable stale entry, a failed fetch returns `None` with the cache
exactly unchanged and the stale entry still present; the only way a
fetch whose network leg fails can change the cache is the pre-network
lookup deleting a corrupt entry for the key. -/
theorem fetch_failure_cache_effect :
    (∀ (url : String) (net : NetResult) (now : ℚ) (c : Cache),
      net.isFailure = true →
      fetch_json url true net now c =
        { result := Except.ok none, cache := c, networkCalled := true }) ∧
    (∀ (url : String) (net : NetResult) (now : ℚ) (c : Cache),
      net.isFailure = true →
      cacheLookup (F1Cache.fileName url) c = none →
      fetch_json url false net now c =
        { result := Except.ok none, cache := c, networkCalled := true }) ∧
    (∀ (url : String) (net : NetResult) (now : ℚ) (c : Cache) (P : JVal)
        (T : ℚ) (sz : ℕ),
      net.isFailure = true →
      cacheLookup (F1Cache.fileName url) c =
        some ⟨FContent.parsed (F1Cache.entryJson url P T), sz⟩ →
      ¬now < T + F1Cache.hoursFor (F1Cache._get_endpoint_type url) →
      fetch_json url false net now c =
        { result := Except.ok none, cache := c, networkCalled := true } ∧
      cacheLookup (F1Cache.fileName url)
          (fetch_json url false net now c).cache =
        some ⟨FContent.parsed (F1Cache.entryJson url P T), sz⟩) := by
  refine ⟨?_, ?_, ?_⟩
  · intro url net now c hf
    cases net with
    | success d => simp [NetResult.isFailure] at hf
    | httpError s => simp [fetch_json, networkLeg]
    | timeout => simp [fetch_json, networkLeg]
    | netError => simp [fetch_json, networkLeg]
  · intro url net now c hf hl
    have hmiss := get_no_entry url now c hl
    cases net with
    | success d => simp [NetResult.isFailure] at hf
    | httpError s => simp [fetch_json, hmiss, isNotNone, networkLeg]
    | timeout => simp [fetch_json, hmiss, isNotNone, networkLeg]
    | netError => simp [fetch_json, hmiss, isNotNone, networkLeg]
  · intro url net now c P T sz hf hl hexp
    have hstale : F1Cache.get url now c = (Except.ok none, c) := by
      rw [get_wellformed url P T sz now c hl, if_neg hexp]
    have hmain : fetch_json url false net now c =
        { result := Except.ok none, cache := c, networkCalled := true } := by
      cases net with
      | success d => simp [NetResult.isFailure] at hf
      | httpError s => simp [fetch_json, hstale, isNotNone, networkLeg]
      | timeout => simp [fetch_json, hstale, isNotNone, networkLeg]
      | netError => simp [fetch_json, hstale, isNotNone, networkLeg]
    exact ⟨hmain, by rw [hmain]; exact hl⟩

set_option maxRecDepth 10000 in
/-- Counterexample to C7 as stated: the key's stored entry is corrupt
(undecodable JSON); a non-bypass fetch whose network leg times out
returns `None`, but the previously cached entry for that key has been
deleted by the lookup phase of that same fetch — so a cached entry was
modified although the network leg failed. -/
theorem fetch_failure_deletes_corrupt_entry :
    (fetch_json "https://x/v1/laps?a=1" false NetResult.timeout 0
        [(F1Cache.fileName "https://x/v1/laps?a=1",
          ⟨FContent.malformed, 4⟩)]).cache = [] ∧
    [(F1Cache.fileName "https://x/v1/laps?a=1",
      (⟨FContent.malformed, 4⟩ : CacheFile))] ≠ ([] : Cache) := by
  exact ⟨rfl, by simp⟩

set_option maxRecDepth 10000 in
/-- Witness for `fetch_failure_cache_effect` at concrete inputs:
bypass with a failing network, a miss with a failing network, and a
stale parseable entry with a failing network. -/
theorem fetch_failure_cache_effect_witness :
    fetch_json "https://x/v1/laps?a=1" true NetResult.timeout 0
        [("k.json", ⟨FContent.malformed, 4⟩)] =
      { result := Except.ok none,
        cache := [("k.json", ⟨FContent.malformed, 4⟩)],
        networkCalled := true } ∧
    fetch_json "https://x/v1/laps?a=1" false NetResult.netError 0 [] =
      { result := Except.ok none, cache := [], networkCalled := true } ∧
    fetch_json "https://x/v1/laps?a=1" false NetResult.timeout 2
        [(F1Cache.fileName "https://x/v1/laps?a=1",
          ⟨FContent.parsed
            (F1Cache.entryJson "https://x/v1/laps?a=1" (JVal.jstr "payload") 0),
           5⟩)] =
      { result := Except.ok none,
        cache :=
          [(F1Cache.fileName "https://x/v1/laps?a=1",
            ⟨FContent.parsed
              (F1Cache.entryJson "https://x/v1/laps?a=1" (JVal.jstr "payload")
                0),
             5⟩)],
        networkCalled := true } := by
  refine ⟨fetch_failure_cache_effect.1 _ NetResult.timeout 0 _ rfl,
    fetch_failure_cache_effect.2.1 _ NetResult.netError 0 [] rfl rfl,
    (fetch_failure_cache_effect.2.2 "https://x/v1/laps?a=1" NetResult.timeout 2
      [(F1Cache.fileName "https://x/v1/laps?a=1",
        ⟨FContent.parsed
          (F1Cache.entryJson "https://x/v1/laps?a=1" (JVal.jstr "payload") 0),
         5⟩)]
      (JVal.jstr "payload") 0 5 rfl rfl ?_).1⟩
  rw [show (0 : ℚ) +
    F1Cache.hoursFor (F1Cache._get_endpoint_type "https://x/v1/laps?a=1") = 1
    from by rw [zero_add]; rfl]
  norm_num
